import Mathlib

/-!
Verification of the shared domain store, analytics and change-propagation
layer of the farm-supply-chain dashboard backend (src/backend/server.js).

Entity records are JavaScript objects built with object-spread; we embed
them as ordered lists of string-keyed bindings where a later binding
shadows an earlier one, exactly as spread does.  Timestamps are embedded
as an abstract integer clock reading passed to each handler (the code
reads `new Date().toISOString()` at that point).
-/

namespace Dashboard

/-- A JavaScript value as stored in the entity records of the backend. -/
inductive JVal where
  | jnum  : Int → JVal
  | jstr  : String → JVal
  | jbool : Bool → JVal
  | jnull : JVal
deriving DecidableEq, Repr

/-- A JavaScript object: bindings in source order; a later binding for the
same key shadows an earlier one (object-spread semantics). -/
abbrev Obj := List (String × JVal)

/-- Property lookup: the value of the last binding of key `k`, if any.
`objGet o k = none` models an absent (`undefined`) property. -/
def objGet : Obj → String → Option JVal
  | [], _ => none
  | (k', v) :: t, k =>
    match objGet t k with
    | some w => some w
    | none => if k' == k then some v else none

/-- JavaScript truthiness of a value, as used by `x || default`. -/
def jsTruthy : JVal → Bool
  | .jnum n => decide (n ≠ 0)
  | .jstr s => decide (s ≠ "")
  | .jbool b => b
  | .jnull => false

/-- `(x || 0)` applied to a numeric field: absent or non-numeric reads as 0
(the backend only ever stores numbers in these fields). -/
def jsNumOrZero : Option JVal → Int
  | some (JVal.jnum n) => n
  | _ => 0

/-- `r.id === k` — the predicate used by every `find`/`findIndex` on a
collection (the route parameter is `parseInt`-ed to the integer `k`). -/
def idMatches (k : Int) (r : Obj) : Bool :=
  objGet r "id" == some (JVal.jnum k)

/-- `collection.find(r => r.id === k)` — the GET-single handlers
(e.g. GET /api/farmers/:id, line 570). -/
def getById (coll : List Obj) (k : Int) : Option Obj :=
  coll.find? (idMatches k)

/-- `findIndex` + `splice(index, 1)`: remove the first element satisfying
`p`, returning the remaining list and the removed element; `none` when no
element matches (the 404 branch). -/
def removeFirst (p : α → Bool) : List α → Option (List α × α)
  | [] => none
  | x :: xs =>
    if p x then some (xs, x)
    else (removeFirst p xs).map (fun q => (x :: q.1, q.2))

/-- `findIndex` + in-place assignment `coll[index] = f coll[index]`:
replace the first element satisfying `p`, returning the new list, the old
element and the new element; `none` when no element matches. -/
def updateFirst (f : α → α) (p : α → Bool) : List α → Option (List α × α × α)
  | [] => none
  | x :: xs =>
    if p x then some (f x :: xs, x, f x)
    else (updateFirst f p xs).map (fun q => (x :: q.1, q.2.1, q.2.2))

/-- POST /api/farmers (lines 579-588): builds
`{ id: farmers.length + 1, ...req.body, createdAt: now, updatedAt: now }`
and pushes it; returns the new collection and the created record. -/
def createFarmer (farmers : List Obj) (body : Obj) (now : Int) : List Obj × Obj :=
  let farmer : Obj :=
    ("id", JVal.jnum ((farmers.length : Int) + 1)) :: body
      ++ [("createdAt", JVal.jnum now), ("updatedAt", JVal.jnum now)]
  (farmers ++ [farmer], farmer)

/-- POST /api/aggregators (lines 119-128): identical construction on the
aggregators collection. -/
def createAggregator (aggregators : List Obj) (body : Obj) (now : Int) : List Obj × Obj :=
  let aggregator : Obj :=
    ("id", JVal.jnum ((aggregators.length : Int) + 1)) :: body
      ++ [("createdAt", JVal.jnum now), ("updatedAt", JVal.jnum now)]
  (aggregators ++ [aggregator], aggregator)

/-- POST /api/procurement/orders (lines 672-682): builds
`{ id: orders.length + 1, ...req.body, status: 'pending', createdAt, updatedAt }`
— note `status: 'pending'` is written after the spread, unconditionally. -/
def createOrder (orders : List Obj) (body : Obj) (now : Int) : List Obj × Obj :=
  let order : Obj :=
    ("id", JVal.jnum ((orders.length : Int) + 1)) :: body
      ++ [("status", JVal.jstr "pending"),
          ("createdAt", JVal.jnum now), ("updatedAt", JVal.jnum now)]
  (orders ++ [order], order)

/-- POST /api/supply/allocations (lines 180-206), record construction:
`{ id: length + 1, ...req.body, status: req.body.status || 'scheduled', createdAt, updatedAt }`. -/
def createAllocation (allocs : List Obj) (body : Obj) (now : Int) : List Obj × Obj :=
  let statusVal : JVal :=
    match objGet body "status" with
    | some v => if jsTruthy v then v else JVal.jstr "scheduled"
    | none => JVal.jstr "scheduled"
  let alloc : Obj :=
    ("id", JVal.jnum ((allocs.length : Int) + 1)) :: body
      ++ [("status", statusVal),
          ("createdAt", JVal.jnum now), ("updatedAt", JVal.jnum now)]
  (allocs ++ [alloc], alloc)

/-- The merged record written by the PUT handlers:
`{ ...coll[index], ...req.body, updatedAt: now }`. -/
def updateRecord (r : Obj) (body : Obj) (now : Int) : Obj :=
  r ++ body ++ [("updatedAt", JVal.jnum now)]

/-- PUT /api/farmers/:id (lines 590-602) and PUT /api/contracts/:id
(lines 368-380) — textually identical handlers: find the record by id,
overwrite it with the spread-merge, return new collection, prior record
and resulting record; `none` is the 404 branch. -/
def updateById (coll : List Obj) (k : Int) (body : Obj) (now : Int) :
    Option (List Obj × Obj × Obj) :=
  updateFirst (fun r => updateRecord r body now) (idMatches k) coll

/-- Result of a DELETE handler: the collection after `splice`, and the
record included in the response body, if the handler includes one. -/
structure DeleteResult where
  coll : List Obj
  returned : Option Obj
deriving DecidableEq, Repr

/-- DELETE /api/farmers/:id (lines 604-612): `splice(index, 1)` then
`res.json({ message: 'Farmer deleted successfully' })` — the response
carries no record, hence `returned := none`. -/
def deleteFarmer (farmers : List Obj) (k : Int) : Option DeleteResult :=
  (removeFirst (idMatches k) farmers).map (fun q => ⟨q.1, none⟩)

/-- DELETE /api/supply/allocations/:id (lines 238-253):
`const deletedAllocation = splice(index, 1)[0]` then
`res.json({ message: ..., allocation: deletedAllocation })`. -/
def deleteAllocation (allocs : List Obj) (k : Int) : Option DeleteResult :=
  (removeFirst (idMatches k) allocs).map (fun q => ⟨q.1, some q.2⟩)

/-- The JSON shape returned by GET /api/analytics/overview (lines 423-440). -/
structure Overview where
  totalFarmers : Nat
  activeCrops : Nat
  pendingOrders : Nat
  totalAllocations : Nat
  totalAllocatedQty : Int
  completionRate : ℚ
  revenue : Int
  profit : Int
  fulfillmentRate : Int
  isFreshSystem : Bool
deriving DecidableEq, Repr

/-- GET /api/analytics/overview (lines 423-440). -/
def analyticsOverview (farmers crops orders allocs : List Obj) : Overview :=
  let totalAllocations := allocs.length
  let totalAllocatedQty := allocs.foldl (fun sum a => sum + jsNumOrZero (objGet a "quantity")) 0
  let completedAllocations :=
    (allocs.filter (fun a => objGet a "status" == some (JVal.jstr "completed"))).length
  { totalFarmers := farmers.length
    activeCrops := crops.length
    pendingOrders := (orders.filter (fun o => objGet o "status" == some (JVal.jstr "pending"))).length
    totalAllocations := totalAllocations
    totalAllocatedQty := totalAllocatedQty
    completionRate :=
      if 0 < totalAllocations then
        ((completedAllocations : ℚ) / (totalAllocations : ℚ)) * 100
      else 0
    revenue := 0
    profit := 0
    fulfillmentRate := 0
    isFreshSystem := decide (farmers.length = 0) }

/-- One alert object produced by GET /api/analytics/risk-alerts. -/
structure Alert where
  id : Nat
  title : String
  message : String
  type : String
  priority : String
  timestamp : Int
deriving DecidableEq, Repr

/-- Farmers with no allocation referencing their id
(`!allocatedFarmerIds.has(f.id)`, lines 489-490). -/
def unallocatedFarmers (farmers allocs : List Obj) : List Obj :=
  farmers.filter (fun f => !(allocs.any (fun a => objGet a "farmerId" == objGet f "id")))

/-- Allocations whose farmerId resolves to no farmer (lines 504-507). -/
def orphanedAllocations (farmers allocs : List Obj) : List Obj :=
  allocs.filter (fun a => !(farmers.any (fun f => objGet f "id" == objGet a "farmerId")))

/-- `Math.ceil((endDate - today) / (1000*60*60*24))` with dates as epoch
milliseconds (line 525). -/
def daysUntilExpiry (endDate today : Int) : Int :=
  Int.ceil (((endDate - today : Int) : ℚ) / 86400000)

/-- Contracts whose end date is 1-30 days ahead (lines 521-529); the
`if (c.endDate)` truthiness guard keeps only a truthy endDate. -/
def expiringContracts (contracts : List Obj) (today : Int) : List Obj :=
  contracts.filter (fun c =>
    match objGet c "endDate" with
    | some (JVal.jnum e) =>
        jsTruthy (JVal.jnum e) &&
          decide (daysUntilExpiry e today ≤ 30 ∧ 0 < daysUntilExpiry e today)
    | _ => false)

/-- GET /api/analytics/risk-alerts (lines 485-543): the three checks are
evaluated in source order and each pushes one alert when its list is
nonempty. -/
def riskAlerts (farmers allocs contracts : List Obj) (today : Int) : List Alert :=
  let l1 := unallocatedFarmers farmers allocs
  let l2 := orphanedAllocations farmers allocs
  let l3 := expiringContracts contracts today
  (if 0 < l1.length then
    [⟨1, "Unallocated Farmers",
      toString l1.length ++ " farmers have no supply allocations",
      "warning", "medium", today⟩]
   else [])
  ++ (if 0 < l2.length then
    [⟨2, "Orphaned Allocations",
      toString l2.length ++ " allocations reference non-existent farmers",
      "error", "high", today⟩]
     else [])
  ++ (if 0 < l3.length then
    [⟨3, "Contracts Expiring Soon",
      toString l3.length ++ " contracts expire within 30 days",
      "warning", "medium", today⟩]
     else [])

/-- An event sent over the WebSocket hub (lines 796-835 and 193-200). -/
inductive WsEvent where
  | welcome (farmers allocs contracts aggregators : Nat)
  | allocationCreated (allocation : Obj)
  | subscribed (channels : List String)
deriving DecidableEq, Repr

/-- The mutable server state: the entity collections of the `database`
object (lines 65-74) plus the inbox of every currently connected
WebSocket client, in connection order. -/
structure ServerState where
  aggregators : List Obj
  farmers : List Obj
  crops : List Obj
  orders : List Obj
  contracts : List Obj
  supplyAllocations : List Obj
  clients : List (List WsEvent)
deriving DecidableEq, Repr

/-- `wss.on('connection')` (lines 799-813): a new client connects and is
immediately sent the welcome event with the current collection sizes. -/
def wsConnect (st : ServerState) : ServerState :=
  { st with clients := st.clients ++
      [[WsEvent.welcome st.farmers.length st.supplyAllocations.length
          st.contracts.length st.aggregators.length]] }

/-- `wss.clients.forEach(client => client.send(...))` — deliver one event
to every currently connected client (lines 193-200). -/
def broadcast (st : ServerState) (e : WsEvent) : ServerState :=
  { st with clients := st.clients.map (fun inbox => inbox ++ [e]) }

/-- The full POST /api/supply/allocations handler (lines 180-206): push
the new allocation, then broadcast `allocation_created` carrying it. -/
def postAllocation (st : ServerState) (body : Obj) (now : Int) : ServerState × Obj :=
  let r := createAllocation st.supplyAllocations body now
  let st1 := { st with supplyAllocations := r.1 }
  (broadcast st1 (WsEvent.allocationCreated r.2), r.2)

/-- The full POST /api/farmers handler (lines 579-588): push the new
farmer; no event is sent to any WebSocket client. -/
def postFarmer (st : ServerState) (body : Obj) (now : Int) : ServerState × Obj :=
  let r := createFarmer st.farmers body now
  ({ st with farmers := r.1 }, r.2)

/-- The server starts with every collection empty and no client
(lines 65-74). -/
def initialState : ServerState :=
  ⟨[], [], [], [], [], [], []⟩

/-- Modelled from the spec: the count the claim about the Overview
analytic predicts for pending orders, namely the number of orders whose
status lies in the set containing "pending" and "ordered".  Defined for
comparison with the source's `analyticsOverview`. -/
def specPendingOrOrderedCount (orders : List Obj) : Nat :=
  (orders.filter (fun o =>
    objGet o "status" == some (JVal.jstr "pending")
      || objGet o "status" == some (JVal.jstr "ordered"))).length

/-! ### Helper lemmas about property lookup and the list primitives -/

theorem objGet_append_of_some {b : Obj} {k : String} {v : JVal}
    (a : Obj) (h : objGet b k = some v) : objGet (a ++ b) k = some v := by
  induction a with
  | nil => simpa using h
  | cons hd tl ih =>
    obtain ⟨k', w⟩ := hd
    have ih' : objGet (tl.append b) k = some v := ih
    simp only [List.cons_append, objGet]
    rw [ih']

theorem objGet_append_of_none {b : Obj} {k : String}
    (a : Obj) (h : objGet b k = none) : objGet (a ++ b) k = objGet a k := by
  induction a with
  | nil => simpa using h
  | cons hd tl ih =>
    obtain ⟨k', w⟩ := hd
    have ih' : objGet (tl.append b) k = objGet tl k := ih
    simp only [List.cons_append, objGet]
    rw [ih']

theorem objGet_eq_none_of_not_mem_keys {k : String} {b : Obj}
    (h : k ∉ b.map Prod.fst) : objGet b k = none := by
  induction b with
  | nil => rfl
  | cons hd tl ih =>
    obtain ⟨k', w⟩ := hd
    simp only [List.map_cons, List.mem_cons, not_or] at h
    have hne : (k' == k) = false := by
      simp only [beq_eq_false_iff_ne, ne_eq]
      exact fun hk => h.1 hk.symm
    simp only [objGet, ih h.2, hne, Bool.false_eq_true, if_false]

theorem mem_keys_of_objGet_some {k : String} {b : Obj} {v : JVal}
    (h : objGet b k = some v) : k ∈ b.map Prod.fst := by
  by_contra hmem
  rw [objGet_eq_none_of_not_mem_keys hmem] at h
  exact Option.noConfusion h

theorem objGet_single_eq (k : String) (v : JVal) : objGet [(k, v)] k = some v := by
  simp [objGet]

theorem objGet_single_ne {f k : String} (v : JVal) (h : ¬ k = f) :
    objGet [(k, v)] f = none := by
  have : (k == f) = false := by simpa [beq_eq_false_iff_ne, ne_eq] using h
  simp [objGet, this]

theorem removeFirst_eq_none {α : Type} {p : α → Bool} {l : List α}
    (h : ∀ x ∈ l, p x = false) : removeFirst p l = none := by
  induction l with
  | nil => rfl
  | cons a xs ih =>
    have ha := h a (List.mem_cons_self a xs)
    simp only [removeFirst, ha, Bool.false_eq_true, if_false,
      ih (fun x hx => h x (List.mem_cons_of_mem a hx)), Option.map_none']

theorem removeFirst_spec {α : Type} {p : α → Bool} {l l' : List α} {x : α}
    (h : removeFirst p l = some (l', x)) :
    p x = true ∧ x ∈ l ∧ l.countP p = l'.countP p + 1 ∧ l'.length + 1 = l.length := by
  induction l generalizing l' with
  | nil => exact Option.noConfusion h
  | cons a xs ih =>
    by_cases hpa : p a = true
    · simp only [removeFirst, hpa, if_true, Option.some.injEq, Prod.mk.injEq] at h
      obtain ⟨h1, h2⟩ := h
      subst h1; subst h2
      refine ⟨hpa, List.mem_cons_self _ _, ?_, rfl⟩
      simp [List.countP_cons, hpa]
    · have hpa' : p a = false := by
        cases hp : p a
        · rfl
        · exact absurd hp hpa
      simp only [removeFirst, hpa', Bool.false_eq_true, if_false,
        Option.map_eq_some'] at h
      obtain ⟨q, hq, hq2⟩ := h
      obtain ⟨q1, q2⟩ := q
      obtain ⟨h1, h2⟩ := Prod.mk.injEq .. ▸ hq2
      subst h2
      have ⟨c1, c2, c3, c4⟩ := ih hq
      subst h1
      refine ⟨c1, List.mem_cons_of_mem a c2, ?_, ?_⟩
      · simp [List.countP_cons, hpa', c3]
      · simpa using c4

theorem removeFirst_isSome {α : Type} {p : α → Bool} {l : List α}
    (h : ∃ x ∈ l, p x = true) : ∃ q, removeFirst p l = some q := by
  induction l with
  | nil => simp at h
  | cons a xs ih =>
    by_cases hpa : p a = true
    · exact ⟨(xs, a), by simp [removeFirst, hpa]⟩
    · have hpa' : p a = false := by
        cases hp : p a
        · rfl
        · exact absurd hp hpa
      obtain ⟨x, hx, hpx⟩ := h
      rcases List.mem_cons.mp hx with rfl | hx'
      · exact absurd hpx hpa
      · obtain ⟨q, hq⟩ := ih ⟨x, hx', hpx⟩
        exact ⟨(a :: q.1, q.2), by simp [removeFirst, hpa', hq]⟩

theorem updateFirst_of_find? {α : Type} {p : α → Bool} {f : α → α} {l : List α} {x : α}
    (h : l.find? p = some x) :
    ∃ l', updateFirst f p l = some (l', x, f x) := by
  induction l with
  | nil => exact Option.noConfusion h
  | cons a xs ih =>
    by_cases hpa : p a = true
    · rw [List.find?_cons_of_pos _ hpa] at h
      obtain rfl := Option.some.injEq .. ▸ h
      exact ⟨f a :: xs, by simp [updateFirst, hpa]⟩
    · have hpa' : p a = false := by
        cases hp : p a
        · rfl
        · exact absurd hp hpa
      rw [List.find?_cons_of_neg _ (by simp [hpa'])] at h
      obtain ⟨l', hl⟩ := ih h
      exact ⟨a :: l', by simp [updateFirst, hpa', hl]⟩

theorem find?_append_left_none {α : Type} {p : α → Bool} {l₁ : List α} (l₂ : List α)
    (h : ∀ x ∈ l₁, p x = false) : (l₁ ++ l₂).find? p = l₂.find? p := by
  induction l₁ with
  | nil => rfl
  | cons a xs ih =>
    have ha := h a (List.mem_cons_self a xs)
    rw [List.cons_append, List.find?_cons_of_neg _ (by simp [ha])]
    exact ih (fun x hx => h x (List.mem_cons_of_mem a hx))

theorem objGet_cons_of_some {t : Obj} {k f : String} (v : JVal) {w : JVal}
    (h : objGet t f = some w) : objGet ((k, v) :: t) f = some w := by
  simp only [objGet, h]

theorem objGet_cons_of_none_self {t : Obj} {k : String} (v : JVal)
    (h : objGet t k = none) : objGet ((k, v) :: t) k = some v := by
  simp only [objGet, h, beq_self_eq_true, if_true]

theorem objGet_cons_ne {t : Obj} {k f : String} (v : JVal) (h : ¬ k = f) :
    objGet ((k, v) :: t) f = objGet t f := by
  have hb : (k == f) = false := by simpa [beq_eq_false_iff_ne, ne_eq] using h
  simp only [objGet, hb, Bool.false_eq_true, if_false]
  cases objGet t f <;> rfl

/-- Lookup of `createdAt` in the two trailing timestamp bindings written by
every create handler. -/
theorem objGet_stamps_createdAt (c u : JVal) :
    objGet [("createdAt", c), ("updatedAt", u)] "createdAt" = some c := by
  simp [objGet]

theorem objGet_stamps_updatedAt (c u : JVal) :
    objGet [("createdAt", c), ("updatedAt", u)] "updatedAt" = some u := by
  simp [objGet]

theorem objGet_stamps_of_ne (c u : JVal) {f : String}
    (h1 : ¬ f = "createdAt") (h2 : ¬ f = "updatedAt") :
    objGet [("createdAt", c), ("updatedAt", u)] f = none := by
  rw [objGet_cons_ne _ (fun hx => h1 hx.symm), objGet_single_ne _ (fun hx => h2 hx.symm)]

/-- Lookup of `status` in the trailing bindings written by the order and
allocation create handlers. -/
theorem objGet_status_stamps (s c u : JVal) :
    objGet [("status", s), ("createdAt", c), ("updatedAt", u)] "status" = some s := by
  simp [objGet]

theorem objGet_status_stamps_of_ne (s c u : JVal) {f : String}
    (h0 : ¬ f = "status") (h1 : ¬ f = "createdAt") (h2 : ¬ f = "updatedAt") :
    objGet [("status", s), ("createdAt", c), ("updatedAt", u)] f = none := by
  rw [objGet_cons_ne _ (fun hx => h0 hx.symm), objGet_stamps_of_ne _ _ h1 h2]

/-! ### Claim theorems -/

/-- Claim C1 (code_bug): the spec's invariant requires identifiers to stay
pairwise distinct and never be reused while the original record lives, but
the code assigns `collection.length + 1`.  Concretely: create two farmers
(ids 1 and 2), delete farmer 1, create another farmer — the new farmer
also receives id 2, so the collection holds two live records with id 2. -/
theorem farmers_id_collision_after_delete :
    ((deleteFarmer (createFarmer (createFarmer [] [] 0).1 [] 1).1 1).map
      (fun d => ((createFarmer d.coll [] 2).1.countP (idMatches 2)))) = some 2 := by
  decide

/-- Claim C2 (confirmed): with exactly one farmer (id 1, region "Narok")
and exactly one allocation whose farmerId 999 matches no farmer
(quantity 50, dated today), the risk-alerts computation returns exactly
the "Unallocated Farmers" alert (count 1) followed by the "Orphaned
Allocations" alert (count 1), and nothing else. -/
theorem riskAlerts_concrete_scenario :
    riskAlerts
      (createFarmer [] [("name", JVal.jstr "A"), ("region", JVal.jstr "Narok")] 10).1
      (createAllocation [] [("farmerId", JVal.jnum 999), ("quantity", JVal.jnum 50),
        ("date", JVal.jnum 20)] 10).1
      [] 20
    = [⟨1, "Unallocated Farmers", "1 farmers have no supply allocations",
        "warning", "medium", 20⟩,
       ⟨2, "Orphaned Allocations", "1 allocations reference non-existent farmers",
        "error", "high", 20⟩] := by
  decide

/-- Claim C4 (counterexample): in a state with a single order whose status
is "ordered", the overview's pending-order count is 0 while the claimed
count over the set containing "pending" and "ordered" is 1 — the two
disagree, so the claim as stated is false. -/
theorem overview_counts_ordered_as_not_pending :
    (analyticsOverview [] [] [[("id", JVal.jnum 1), ("status", JVal.jstr "ordered")]] []).pendingOrders = 0
    ∧ specPendingOrOrderedCount [[("id", JVal.jnum 1), ("status", JVal.jstr "ordered")]] = 1
    ∧ (analyticsOverview [] [] [[("id", JVal.jnum 1), ("status", JVal.jstr "ordered")]] []).pendingOrders
        ≠ specPendingOrOrderedCount [[("id", JVal.jnum 1), ("status", JVal.jstr "ordered")]] := by
  decide

/-- Claim C4 (amended): for every state of the Order collection, the
Overview analytic's pending-order count equals the number of orders whose
status is exactly "pending" (orders with status "ordered" are not
counted). -/
theorem overview_pendingOrders_spec (farmers crops orders allocs : List Obj) :
    (analyticsOverview farmers crops orders allocs).pendingOrders =
      orders.countP (fun o => decide (objGet o "status" = some (JVal.jstr "pending"))) := by
  simp only [analyticsOverview]
  rw [List.countP_eq_length_filter]
  congr 1
  apply List.filter_congr
  intro o _
  cases h : objGet o "status" == some (JVal.jstr "pending")
  · simp only [beq_eq_false_iff_ne, ne_eq] at h
    simp [h]
  · rw [beq_iff_eq] at h
    simp [h]

/-- Claim C6 (confirmed): the Overview analytic's completionRate is 0 when
there are zero allocations, equals completed/total × 100 otherwise, and is
always within [0, 100]. -/
theorem overview_completionRate_spec (farmers crops orders allocs : List Obj) :
    ((analyticsOverview farmers crops orders allocs).completionRate =
      if allocs.length = 0 then 0
      else (((allocs.filter (fun a => objGet a "status" == some (JVal.jstr "completed"))).length : ℚ)
            / (allocs.length : ℚ)) * 100)
    ∧ 0 ≤ (analyticsOverview farmers crops orders allocs).completionRate
    ∧ (analyticsOverview farmers crops orders allocs).completionRate ≤ 100 := by
  have hle : (allocs.filter (fun a => objGet a "status" == some (JVal.jstr "completed"))).length
      ≤ allocs.length := List.length_filter_le _ _
  simp only [analyticsOverview]
  rcases Nat.eq_zero_or_pos allocs.length with hz | hpos
  · simp [hz]
  · have hne : ¬ allocs.length = 0 := Nat.pos_iff_ne_zero.mp hpos
    have hq : (0 : ℚ) < (allocs.length : ℚ) := by exact_mod_cast hpos
    refine ⟨by simp [hpos, hne], ?_, ?_⟩
    · simp only [hpos, if_true]
      positivity
    · simp only [hpos, if_true]
      have hdiv : ((allocs.filter (fun a => objGet a "status" == some (JVal.jstr "completed"))).length : ℚ)
          / (allocs.length : ℚ) ≤ 1 := by
        rw [div_le_one hq]
        exact_mod_cast hle
      calc ((allocs.filter (fun a => objGet a "status" == some (JVal.jstr "completed"))).length : ℚ)
            / (allocs.length : ℚ) * 100
          ≤ 1 * 100 := by
            exact mul_le_mul_of_nonneg_right hdiv (by norm_num)
        _ = 100 := one_mul 100

/-- Claim C3 (counterexample): a subscriber connected before a successful
farmer create receives no event at all — the handler for
POST /api/farmers never touches the WebSocket clients, refuting "every
successful create ... publishes exactly one event". -/
theorem postFarmer_publishes_no_event :
    ((postFarmer (wsConnect initialState) [("name", JVal.jstr "A")] 5).1.clients
      = (wsConnect initialState).clients)
    ∧ (wsConnect initialState).clients.length = 1
    ∧ (postFarmer (wsConnect initialState) [("name", JVal.jstr "A")] 5).1.farmers.length = 1 := by
  decide

/-- Claim C3 (amended): among the cited mutation handlers only the
SupplyAllocation create publishes; it appends exactly one
allocation_created event carrying the created record to every subscriber
connected before the create, and it does so only after the allocation is
stored (the broadcast record is an element of the post-state collection);
a subscriber connecting afterwards starts with only the welcome event and
holds no allocation_created event; the farmer create publishes nothing. -/
theorem postAllocation_broadcast_spec (st : ServerState) (body : Obj) (now : Int) :
    ((postAllocation st body now).1.clients =
      st.clients.map (fun inbox => inbox ++ [WsEvent.allocationCreated (postAllocation st body now).2]))
    ∧ (postAllocation st body now).2 ∈ (postAllocation st body now).1.supplyAllocations
    ∧ ((postAllocation st body now).1.supplyAllocations =
        st.supplyAllocations ++ [(postAllocation st body now).2])
    ∧ ((wsConnect (postAllocation st body now).1).clients =
        (postAllocation st body now).1.clients ++
          [[WsEvent.welcome (postAllocation st body now).1.farmers.length
              (postAllocation st body now).1.supplyAllocations.length
              (postAllocation st body now).1.contracts.length
              (postAllocation st body now).1.aggregators.length]])
    ∧ (∀ a : Obj, WsEvent.allocationCreated a ∉
        ([WsEvent.welcome (postAllocation st body now).1.farmers.length
            (postAllocation st body now).1.supplyAllocations.length
            (postAllocation st body now).1.contracts.length
            (postAllocation st body now).1.aggregators.length] : List WsEvent))
    ∧ (∀ body2 : Obj, (postFarmer st body2 now).1.clients = st.clients) := by
  refine ⟨rfl, ?_, rfl, rfl, ?_, fun body2 => rfl⟩
  · show (postAllocation st body now).2 ∈
      st.supplyAllocations ++ [(postAllocation st body now).2]
    exact List.mem_append_right _ (List.mem_singleton_self _)
  · intro a
    simp

/-- Claim C5 (counterexample): with two records sharing id 1 (reachable,
since create accepts a caller-supplied id and count-based assignment
collides after deletion), DELETE /api/farmers/1 returns only a message —
no prior record — and a subsequent get(1) still finds a record instead of
NotFound. -/
theorem deleteFarmer_no_record_and_stale_get :
    deleteFarmer [[("id", JVal.jnum 1), ("name", JVal.jstr "A")],
                  [("id", JVal.jnum 1), ("name", JVal.jstr "B")]] 1
      = some ⟨[[("id", JVal.jnum 1), ("name", JVal.jstr "B")]], none⟩
    ∧ getById [[("id", JVal.jnum 1), ("name", JVal.jstr "B")]] 1
        = some [("id", JVal.jnum 1), ("name", JVal.jstr "B")]
    ∧ (some [("id", JVal.jnum 1), ("name", JVal.jstr "B")] : Option Obj) ≠ none := by
  decide

/-- Claim C5 (amended): when a collection holds exactly one record with
the id, delete removes it, a subsequent get yields NotFound, and the
count drops by exactly one; the allocation delete additionally returns
the removed record in its response while the farmer delete returns only a
success message; deleting an id not present yields NotFound. -/
theorem delete_unique_id_spec (farmers allocs : List Obj) (k j : Int)
    (hf : farmers.countP (idMatches k) = 1)
    (hj : ∀ r ∈ farmers, idMatches j r = false)
    (ha : allocs.countP (idMatches k) = 1) :
    (∃ d, deleteFarmer farmers k = some d ∧ d.returned = none
      ∧ getById d.coll k = none ∧ d.coll.length + 1 = farmers.length)
    ∧ deleteFarmer farmers j = none
    ∧ (∃ d r, deleteAllocation allocs k = some d ∧ r ∈ allocs ∧ idMatches k r
        ∧ d.returned = some r ∧ getById d.coll k = none
        ∧ d.coll.length + 1 = allocs.length) := by
  have hex : ∃ x ∈ farmers, idMatches k x = true := by
    have h1 : 0 < farmers.countP (idMatches k) := by rw [hf]; norm_num
    simpa using List.countP_pos_iff.mp h1
  have hexa : ∃ x ∈ allocs, idMatches k x = true := by
    have h1 : 0 < allocs.countP (idMatches k) := by rw [ha]; norm_num
    simpa using List.countP_pos_iff.mp h1
  obtain ⟨⟨l', x⟩, hq⟩ := removeFirst_isSome hex
  obtain ⟨hpx, hmem, hcount, hlen⟩ := removeFirst_spec hq
  obtain ⟨⟨la', xa⟩, hqa⟩ := removeFirst_isSome hexa
  obtain ⟨hpxa, hmema, hcounta, hlena⟩ := removeFirst_spec hqa
  have hrest : ∀ y ∈ l', idMatches k y = false := by
    rw [hf] at hcount
    have h0 : l'.countP (idMatches k) = 0 := by omega
    intro y hy
    have := (List.countP_eq_zero.mp h0) y hy
    simpa using this
  have hresta : ∀ y ∈ la', idMatches k y = false := by
    rw [ha] at hcounta
    have h0 : la'.countP (idMatches k) = 0 := by omega
    intro y hy
    have := (List.countP_eq_zero.mp h0) y hy
    simpa using this
  refine ⟨⟨⟨l', none⟩, ?_, rfl, ?_, ?_⟩, ?_, ⟨⟨la', some xa⟩, xa, ?_, hmema, hpxa, rfl, ?_, ?_⟩⟩
  · simp [deleteFarmer, hq]
  · exact List.find?_eq_none.mpr (fun y hy => by simp [hrest y hy])
  · exact hlen
  · simp [deleteFarmer, removeFirst_eq_none hj]
  · simp [deleteAllocation, hqa]
  · exact List.find?_eq_none.mpr (fun y hy => by simp [hresta y hy])
  · exact hlena

/-- Claim C5 (witness): the amended delete property evaluated on the
singleton collections holding one record with id 1, deleting id 1 and
probing the absent id 2. -/
theorem delete_unique_id_spec_witness :
    (∃ d, deleteFarmer [[("id", JVal.jnum 1)]] 1 = some d ∧ d.returned = none
      ∧ getById d.coll 1 = none ∧ d.coll.length + 1 = ([[("id", JVal.jnum 1)]] : List Obj).length)
    ∧ deleteFarmer [[("id", JVal.jnum 1)]] 2 = none
    ∧ (∃ d r, deleteAllocation [[("id", JVal.jnum 1)]] 1 = some d
        ∧ r ∈ ([[("id", JVal.jnum 1)]] : List Obj) ∧ idMatches 1 r
        ∧ d.returned = some r ∧ getById d.coll 1 = none
        ∧ d.coll.length + 1 = ([[("id", JVal.jnum 1)]] : List Obj).length) :=
  delete_unique_id_spec [[("id", JVal.jnum 1)]] [[("id", JVal.jnum 1)]] 1 2
    (by decide) (by decide) (by decide)

/-- Claim C7 (counterexample): creating an Order with a supplied status
"received" stores and returns status "pending" — the handler writes
`status: 'pending'` after the spread, overriding the supplied value. -/
theorem createOrder_overrides_supplied_status :
    objGet (createOrder [] [("status", JVal.jstr "received")] 0).2 "status"
      = some (JVal.jstr "pending")
    ∧ (some (JVal.jstr "pending") : Option JVal) ≠ some (JVal.jstr "received") := by
  decide

/-- Claim C7 (amended): an Order's status is set to "pending"
unconditionally, overriding any supplied status; a SupplyAllocation
created without a status (or with a falsy one) gets the default
"scheduled", while a supplied truthy status is preserved. -/
theorem create_status_defaults (orders allocs : List Obj) (body : Obj) (now : Int) :
    objGet (createOrder orders body now).2 "status" = some (JVal.jstr "pending")
    ∧ (objGet body "status" = none →
        objGet (createAllocation allocs body now).2 "status" = some (JVal.jstr "scheduled"))
    ∧ (∀ v, objGet body "status" = some v → jsTruthy v = true →
        objGet (createAllocation allocs body now).2 "status" = some v)
    ∧ (∀ v, objGet body "status" = some v → jsTruthy v = false →
        objGet (createAllocation allocs body now).2 "status" = some (JVal.jstr "scheduled")) := by
  refine ⟨?_, ?_, ?_, ?_⟩
  · exact objGet_cons_of_some _
      (objGet_append_of_some body (objGet_status_stamps _ _ _))
  · intro h
    show objGet (("id", JVal.jnum ((allocs.length : Int) + 1)) :: body
      ++ [("status", match objGet body "status" with
            | some v => if jsTruthy v then v else JVal.jstr "scheduled"
            | none => JVal.jstr "scheduled"),
          ("createdAt", JVal.jnum now), ("updatedAt", JVal.jnum now)]) "status"
      = some (JVal.jstr "scheduled")
    rw [h]
    exact objGet_cons_of_some _
      (objGet_append_of_some body (objGet_status_stamps _ _ _))
  · intro v h ht
    show objGet (("id", JVal.jnum ((allocs.length : Int) + 1)) :: body
      ++ [("status", match objGet body "status" with
            | some w => if jsTruthy w then w else JVal.jstr "scheduled"
            | none => JVal.jstr "scheduled"),
          ("createdAt", JVal.jnum now), ("updatedAt", JVal.jnum now)]) "status"
      = some v
    rw [h]
    simp only [ht, if_true]
    exact objGet_cons_of_some _
      (objGet_append_of_some body (objGet_status_stamps _ _ _))
  · intro v h ht
    show objGet (("id", JVal.jnum ((allocs.length : Int) + 1)) :: body
      ++ [("status", match objGet body "status" with
            | some w => if jsTruthy w then w else JVal.jstr "scheduled"
            | none => JVal.jstr "scheduled"),
          ("createdAt", JVal.jnum now), ("updatedAt", JVal.jnum now)]) "status"
      = some (JVal.jstr "scheduled")
    rw [h]
    simp only [ht, Bool.false_eq_true, if_false]
    exact objGet_cons_of_some _
      (objGet_append_of_some body (objGet_status_stamps _ _ _))

/-- Claim C7 (witness): the status defaults evaluated at concrete inputs —
a supplied truthy status "allocated" is preserved, an absent status
defaults to "scheduled". -/
theorem create_status_defaults_witness :
    objGet (createAllocation [] [("status", JVal.jstr "allocated")] 3).2 "status"
        = some (JVal.jstr "allocated")
    ∧ objGet (createAllocation [] [("farmerId", JVal.jnum 1)] 3).2 "status"
        = some (JVal.jstr "scheduled") :=
  ⟨(create_status_defaults [] [] [("status", JVal.jstr "allocated")] 3).2.2.1
      (JVal.jstr "allocated") (by decide) (by decide),
   (create_status_defaults [] [] [("farmerId", JVal.jnum 1)] 3).2.1 (by decide)⟩

/-- Claim C8 (counterexample): updating a record with a partial object
that itself names `updatedAt` does not set that field to the supplied
value — the handler re-stamps it with the current time, so the claim
"sets each field named in partial to the supplied value" fails. -/
theorem update_ignores_supplied_updatedAt :
    (updateById [[("id", JVal.jnum 1), ("updatedAt", JVal.jnum 10)]] 1
        [("updatedAt", JVal.jnum 5)] 11).map (fun q => objGet q.2.2 "updatedAt")
      = some (some (JVal.jnum 11))
    ∧ (some (some (JVal.jnum 11)) : Option (Option JVal)) ≠ some (some (JVal.jnum 5)) := by
  decide

/-- Claim C8 (amended): update leaves every field not named in the partial
object (including createdAt) unchanged, sets each named field other than
updatedAt to the supplied value, and re-stamps updatedAt with the
operation's current time — which strictly exceeds the record's prior
updatedAt whenever the clock has advanced past it. -/
theorem update_merge_spec (coll : List Obj) (k : Int) (body : Obj) (now t0 : Int) (r : Obj)
    (hget : getById coll k = some r)
    (ht : objGet r "updatedAt" = some (JVal.jnum t0))
    (hlt : t0 < now) :
    ∃ coll', updateById coll k body now = some (coll', r, updateRecord r body now)
      ∧ (∀ f v, ¬ f = "updatedAt" → objGet body f = some v →
          objGet (updateRecord r body now) f = some v)
      ∧ (∀ f, ¬ f = "updatedAt" → objGet body f = none →
          objGet (updateRecord r body now) f = objGet r f)
      ∧ objGet (updateRecord r body now) "updatedAt" = some (JVal.jnum now)
      ∧ (∃ tN, objGet (updateRecord r body now) "updatedAt" = some (JVal.jnum tN) ∧ t0 < tN) := by
  obtain ⟨coll', hup⟩ := updateFirst_of_find? (f := fun x => updateRecord x body now) hget
  refine ⟨coll', hup, ?_, ?_, ?_, ⟨now, ?_, hlt⟩⟩
  · intro f v hf hv
    have hsingle : objGet [("updatedAt", JVal.jnum now)] f = none :=
      objGet_single_ne _ (fun hx => hf hx.symm)
    show objGet ((r ++ body) ++ [("updatedAt", JVal.jnum now)]) f = some v
    rw [objGet_append_of_none _ hsingle]
    exact objGet_append_of_some r hv
  · intro f hf hv
    have hsingle : objGet [("updatedAt", JVal.jnum now)] f = none :=
      objGet_single_ne _ (fun hx => hf hx.symm)
    show objGet ((r ++ body) ++ [("updatedAt", JVal.jnum now)]) f = objGet r f
    rw [objGet_append_of_none _ hsingle]
    exact objGet_append_of_none r hv
  · exact objGet_append_of_some _ (objGet_single_eq _ _)
  · exact objGet_append_of_some _ (objGet_single_eq _ _)

/-- Claim C8 (witness): the amended update property evaluated on a
one-farmer collection (id 1, prior updatedAt 0), updating the name at
time 5. -/
theorem update_merge_spec_witness :
    ∃ coll', updateById [[("id", JVal.jnum 1), ("updatedAt", JVal.jnum 0)]] 1
        [("name", JVal.jstr "B")] 5
        = some (coll', [("id", JVal.jnum 1), ("updatedAt", JVal.jnum 0)],
            updateRecord [("id", JVal.jnum 1), ("updatedAt", JVal.jnum 0)]
              [("name", JVal.jstr "B")] 5)
      ∧ (∀ f v, ¬ f = "updatedAt" → objGet [("name", JVal.jstr "B")] f = some v →
          objGet (updateRecord [("id", JVal.jnum 1), ("updatedAt", JVal.jnum 0)]
            [("name", JVal.jstr "B")] 5) f = some v)
      ∧ (∀ f, ¬ f = "updatedAt" → objGet [("name", JVal.jstr "B")] f = none →
          objGet (updateRecord [("id", JVal.jnum 1), ("updatedAt", JVal.jnum 0)]
              [("name", JVal.jstr "B")] 5) f
            = objGet [("id", JVal.jnum 1), ("updatedAt", JVal.jnum 0)] f)
      ∧ objGet (updateRecord [("id", JVal.jnum 1), ("updatedAt", JVal.jnum 0)]
          [("name", JVal.jstr "B")] 5) "updatedAt" = some (JVal.jnum 5)
      ∧ (∃ tN, objGet (updateRecord [("id", JVal.jnum 1), ("updatedAt", JVal.jnum 0)]
          [("name", JVal.jstr "B")] 5) "updatedAt" = some (JVal.jnum tN) ∧ 0 < tN) :=
  update_merge_spec [[("id", JVal.jnum 1), ("updatedAt", JVal.jnum 0)]] 1
    [("name", JVal.jstr "B")] 5 0 [("id", JVal.jnum 1), ("updatedAt", JVal.jnum 0)]
    (by decide) (by decide) (by decide)

/-- Claim C9 (counterexample): a partial object supplying `createdAt` is
not preserved by create — the handler overwrites it with the fresh
timestamp, so "every field supplied in the partial object is preserved"
fails. -/
theorem create_overwrites_supplied_createdAt :
    objGet (createFarmer [] [("createdAt", JVal.jnum 99)] 5).2 "createdAt"
      = some (JVal.jnum 5)
    ∧ (some (JVal.jnum 5) : Option JVal) ≠ some (JVal.jnum 99) := by
  decide

/-- Claim C9 (amended): for a partial object that supplies none of `id`,
`createdAt`, `updatedAt`, and a collection in which no existing record
already carries the id length+1 that create will assign, create followed
by get of the assigned id yields the created record, whose createdAt
equals its updatedAt and in which every supplied field keeps its supplied
value. -/
theorem create_get_roundtrip (farmers : List Obj) (body : Obj) (now : Int)
    (hid : "id" ∉ body.map Prod.fst)
    (hc : "createdAt" ∉ body.map Prod.fst)
    (hu : "updatedAt" ∉ body.map Prod.fst)
    (hfresh : ∀ r ∈ farmers, idMatches ((farmers.length : Int) + 1) r = false) :
    getById (createFarmer farmers body now).1 ((farmers.length : Int) + 1)
        = some (createFarmer farmers body now).2
    ∧ objGet (createFarmer farmers body now).2 "id"
        = some (JVal.jnum ((farmers.length : Int) + 1))
    ∧ objGet (createFarmer farmers body now).2 "createdAt" = some (JVal.jnum now)
    ∧ objGet (createFarmer farmers body now).2 "updatedAt" = some (JVal.jnum now)
    ∧ objGet (createFarmer farmers body now).2 "createdAt"
        = objGet (createFarmer farmers body now).2 "updatedAt"
    ∧ (∀ f v, objGet body f = some v →
        objGet (createFarmer farmers body now).2 f = some v) := by
  have hidlookup : objGet (createFarmer farmers body now).2 "id"
      = some (JVal.jnum ((farmers.length : Int) + 1)) := by
    show objGet (("id", JVal.jnum ((farmers.length : Int) + 1)) ::
      body ++ [("createdAt", JVal.jnum now), ("updatedAt", JVal.jnum now)]) "id"
      = some (JVal.jnum ((farmers.length : Int) + 1))
    have hstamps : objGet [("createdAt", JVal.jnum now), ("updatedAt", JVal.jnum now)] "id"
        = none := objGet_stamps_of_ne _ _ (by decide) (by decide)
    apply objGet_cons_of_none_self
    exact (objGet_append_of_none body hstamps).trans
      (objGet_eq_none_of_not_mem_keys hid)
  have hcreated : objGet (createFarmer farmers body now).2 "createdAt"
      = some (JVal.jnum now) :=
    objGet_cons_of_some _ (objGet_append_of_some body (objGet_stamps_createdAt _ _))
  have hupdated : objGet (createFarmer farmers body now).2 "updatedAt"
      = some (JVal.jnum now) :=
    objGet_cons_of_some _ (objGet_append_of_some body (objGet_stamps_updatedAt _ _))
  refine ⟨?_, hidlookup, hcreated, hupdated, hcreated.trans hupdated.symm, ?_⟩
  · show ((farmers ++ [(createFarmer farmers body now).2]).find?
      (idMatches ((farmers.length : Int) + 1)))
      = some (createFarmer farmers body now).2
    rw [find?_append_left_none _ hfresh]
    exact List.find?_cons_of_pos _ (by simp [idMatches, hidlookup])
  · intro f v hv
    have hfc : ¬ f = "createdAt" := fun hx =>
      hc (hx ▸ mem_keys_of_objGet_some hv)
    have hfu : ¬ f = "updatedAt" := fun hx =>
      hu (hx ▸ mem_keys_of_objGet_some hv)
    have hstamps : objGet [("createdAt", JVal.jnum now), ("updatedAt", JVal.jnum now)] f
        = none := objGet_stamps_of_ne _ _ hfc hfu
    exact objGet_cons_of_some _
      ((objGet_append_of_none body hstamps).trans hv)

/-- Claim C9 (witness): the amended create/get round-trip evaluated on the
empty farmer collection with the partial object supplying only a name. -/
theorem create_get_roundtrip_witness :
    getById (createFarmer [] [("name", JVal.jstr "A")] 7).1 ((([] : List Obj).length : Int) + 1)
        = some (createFarmer [] [("name", JVal.jstr "A")] 7).2
    ∧ objGet (createFarmer [] [("name", JVal.jstr "A")] 7).2 "id"
        = some (JVal.jnum ((([] : List Obj).length : Int) + 1))
    ∧ objGet (createFarmer [] [("name", JVal.jstr "A")] 7).2 "createdAt" = some (JVal.jnum 7)
    ∧ objGet (createFarmer [] [("name", JVal.jstr "A")] 7).2 "updatedAt" = some (JVal.jnum 7)
    ∧ objGet (createFarmer [] [("name", JVal.jstr "A")] 7).2 "createdAt"
        = objGet (createFarmer [] [("name", JVal.jstr "A")] 7).2 "updatedAt"
    ∧ (∀ f v, objGet [("name", JVal.jstr "A")] f = some v →
        objGet (createFarmer [] [("name", JVal.jstr "A")] 7).2 f = some v) :=
  create_get_roundtrip [] [("name", JVal.jstr "A")] 7
    (by decide) (by decide) (by decide) (by decide)

/-- Claim C10 (confirmed): because the create handlers spread the caller's
body after the freshly assigned id and before the timestamp stamps, a
body that contains an `id` field makes the stored and returned record
carry the caller-supplied id (for both the farmer and the aggregator
endpoint), which permits duplicate identifiers in one collection, while
caller-supplied createdAt/updatedAt values are always overwritten by the
fresh timestamps. -/
theorem create_supplied_id_wins (farmers aggregators : List Obj) (body : Obj)
    (now : Int) (v : JVal) (h : objGet body "id" = some v) :
    objGet (createFarmer farmers body now).2 "id" = some v
    ∧ (createFarmer farmers body now).1 = farmers ++ [(createFarmer farmers body now).2]
    ∧ objGet (createFarmer farmers body now).2 "createdAt" = some (JVal.jnum now)
    ∧ objGet (createFarmer farmers body now).2 "updatedAt" = some (JVal.jnum now)
    ∧ objGet (createAggregator aggregators body now).2 "id" = some v
    ∧ objGet (createAggregator aggregators body now).2 "createdAt" = some (JVal.jnum now)
    ∧ objGet (createAggregator aggregators body now).2 "updatedAt" = some (JVal.jnum now)
    ∧ ((createFarmer [[("id", JVal.jnum 1), ("name", JVal.jstr "A")]]
          [("id", JVal.jnum 1)] 0).1.countP (idMatches 1) = 2) := by
  have hbody : objGet (body ++ [("createdAt", JVal.jnum now), ("updatedAt", JVal.jnum now)]) "id"
      = some v := by
    rw [objGet_append_of_none _ (objGet_stamps_of_ne _ _ (by decide) (by decide))]
    exact h
  refine ⟨objGet_cons_of_some _ hbody, rfl,
    objGet_cons_of_some _ (objGet_append_of_some body (objGet_stamps_createdAt _ _)),
    objGet_cons_of_some _ (objGet_append_of_some body (objGet_stamps_updatedAt _ _)),
    objGet_cons_of_some _ hbody,
    objGet_cons_of_some _ (objGet_append_of_some body (objGet_stamps_createdAt _ _)),
    objGet_cons_of_some _ (objGet_append_of_some body (objGet_stamps_updatedAt _ _)),
    by decide⟩

/-- Claim C10 (witness): the spread-override property evaluated on the
empty collections with a body supplying id 7 at time 3. -/
theorem create_supplied_id_wins_witness :
    objGet (createFarmer [] [("id", JVal.jnum 7)] 3).2 "id" = some (JVal.jnum 7)
    ∧ (createFarmer [] [("id", JVal.jnum 7)] 3).1
        = [] ++ [(createFarmer [] [("id", JVal.jnum 7)] 3).2]
    ∧ objGet (createFarmer [] [("id", JVal.jnum 7)] 3).2 "createdAt" = some (JVal.jnum 3)
    ∧ objGet (createFarmer [] [("id", JVal.jnum 7)] 3).2 "updatedAt" = some (JVal.jnum 3)
    ∧ objGet (createAggregator [] [("id", JVal.jnum 7)] 3).2 "id" = some (JVal.jnum 7)
    ∧ objGet (createAggregator [] [("id", JVal.jnum 7)] 3).2 "createdAt" = some (JVal.jnum 3)
    ∧ objGet (createAggregator [] [("id", JVal.jnum 7)] 3).2 "updatedAt" = some (JVal.jnum 3)
    ∧ ((createFarmer [[("id", JVal.jnum 1), ("name", JVal.jstr "A")]]
          [("id", JVal.jnum 1)] 0).1.countP (idMatches 1) = 2) :=
  create_supplied_id_wins [] [] [("id", JVal.jnum 7)] 3 (JVal.jnum 7) (by decide)

end Dashboard
